import Mathlib

/-!
Verification of github.com/emcfarlane/starlarkassert against its
natural-language specification.

The package is a thin binding layer between Starlark scripts and Go's
`testing` package.  The development below is a shallow embedding of the
relevant Go functions:

* `starlarkassert.go` — `SetReporter` / `GetReporter` (thread locals),
  `LoadAssertModule` (sync.Once-cached module execution), and the
  builtins `error_`, `catch`, `matches`;
* `test.go` — the `Test` adapter (`testAttrs`, `Attr`, `AttrNames`,
  `run`, `skip`, `fail`), `wrapLog`, `errorf` and the dispatch loop of
  `TestFile`;
* `bench.go` — the `Bench` adapter (`benchAttrs`, `Attr`, `AttrNames`)
  and the dispatch loop of `BenchFile`.

External behaviour supplied by go.starlark.net or the Go standard
library (script execution, calling a Starlark value, the regexp engine,
the rendering of a call stack) is modelled as an explicit function
parameter, so that the theorems quantify over every possible behaviour
of the external component.  Go maps become association lists, Go slices
become `List`, nil-able results become `Option`/`Except`, and side
effects (calls into the host `*testing.T`/`*testing.B`) become explicit
event logs.
-/

namespace Starlarkassert

/-- A shallow model of the `starlark.Value`s that appear in this package.
`func` and `builtin` are the callable values (`starlark.Callable` is
implemented by `*starlark.Function` and `*starlark.Builtin`); `test` and
`bench` model the adapter objects of `test.go` / `bench.go` (a `test`
carries the allocation index of its `NewTest` call and its `frozen`
flag, a `bench` the allocation index of its `NewBench` call). -/
inductive SValue where
  | none
  | bool (b : Bool)
  | int (n : Int)
  | str (s : String)
  | func (name : String)
  | builtin (name : String)
  | test (id : Nat) (frozen : Bool)
  | bench (id : Nat)
  deriving Repr, DecidableEq

/-- The Go type assertion `val.(starlark.Callable)`: true exactly for the
callable values of the model. -/
def isCallable : SValue → Bool
  | SValue.func _ => true
  | SValue.builtin _ => true
  | _ => false

/-- A `starlark.StringDict` (Go `map[string]starlark.Value`), modelled as
an association list. -/
abbrev StringDict := List (String × SValue)

/-! ## `LoadAssertModule` (src/starlarkassert.go lines 49–74)

```go
var (
    once      sync.Once
    assert    starlark.StringDict
    assertErr error
)

func LoadAssertModule(thread *starlark.Thread) (starlark.StringDict, error) {
    once.Do(func() {
        predeclared := starlark.StringDict{
            "error":   starlark.NewBuiltin("error", error_),
            "catch":   starlark.NewBuiltin("catch", catch),
            "matches": starlark.NewBuiltin("matches", matches),
            "module":  starlark.NewBuiltin("module", starlarkstruct.MakeModule),
            "_freeze": starlark.NewBuiltin("freeze", freeze),
        }
        filename := "starlarkassert/assert.star"
        assert, assertErr = starlark.ExecFile(thread, filename, assertSrc, predeclared)
    })
    return assert, assertErr
}
```

`starlark.ExecFile` is external: it is modelled as a parameter
`exec : String → List String → StringDict × Option String`
(filename and the keys of the predeclared dict in source order, to the
resulting globals and error).  The package-level mutable state
(`once`, `assert`, `assertErr`) becomes `LoadState`; to express "the
module is not re-executed" the state also records the log of `exec`
invocations.  `sync.Once` serialises concurrent first calls, so a
sequence of calls (from any interleaving of threads) is modelled as a
sequential sequence of state transitions. -/

/-- Keys of the `predeclared` dict built inside `LoadAssertModule`, in
source order. -/
def predeclaredKeys : List String := ["error", "catch", "matches", "module", "_freeze"]

/-- The filename passed to `starlark.ExecFile` by `LoadAssertModule`. -/
def assertFilename : String := "starlarkassert/assert.star"

/-- The package-level state of `starlarkassert.go`: the `sync.Once` flag,
the cached `assert` / `assertErr` pair, and (for the proofs) the log of
`ExecFile` invocations performed so far. -/
structure LoadState where
  onceDone : Bool
  assert : StringDict
  assertErr : Option String
  execLog : List (String × List String)
  deriving Repr, DecidableEq

/-- The zero value of the package state at process start. -/
def initLoadState : LoadState :=
  { onceDone := false, assert := [], assertErr := Option.none, execLog := [] }

/-- One call to `LoadAssertModule`, given the external `ExecFile`
behaviour `exec`.  Mirrors `once.Do` followed by `return assert,
assertErr`. -/
def loadAssertModule (exec : String → List String → StringDict × Option String)
    (s : LoadState) : LoadState × (StringDict × Option String) :=
  if s.onceDone then
    (s, (s.assert, s.assertErr))
  else
    let r := exec assertFilename predeclaredKeys
    ({ onceDone := true, assert := r.1, assertErr := r.2,
       execLog := s.execLog ++ [(assertFilename, predeclaredKeys)] },
     (r.1, r.2))

/-- `n` successive calls to `LoadAssertModule`: the list of results in
call order, and the final state. -/
def loadCalls (exec : String → List String → StringDict × Option String) :
    Nat → LoadState → List (StringDict × Option String) × LoadState
  | 0, s => ([], s)
  | Nat.succ n, s =>
    let (s2, r) := loadAssertModule exec s
    let (rs, s3) := loadCalls exec n s2
    (r :: rs, s3)

/-! ## `SetReporter` / `GetReporter` (src/starlarkassert.go lines 24–47)

`thread.SetLocal(localKey, r)` stores into the thread's own locals map;
`thread.Local(localKey)` reads it back.  Threads are identified by a
`Nat`; the side table is a function from thread identity to that
thread's locals, a per-thread association list keyed by string.  The
reporter type is kept abstract (`R`); `GetReporter`'s failed type
assertion (which panics) is modelled by `Option.none`. -/

/-- `const localKey = "Reporter"`. -/
def localKey : String := "Reporter"

/-- `thread.SetLocal(k, v)` on thread `t`: a Go map store, modelled by
consing the new binding in front of the thread's association list
(lookup finds the newest binding first). -/
def setLocal {R : Type} (locals : Nat → List (String × R)) (t : Nat) (k : String)
    (v : R) : Nat → List (String × R) :=
  fun u => if u = t then (k, v) :: locals u else locals u

/-- `thread.Local(k)` on thread `t`: association-list lookup. -/
def getLocal {R : Type} (locals : Nat → List (String × R)) (t : Nat) (k : String) :
    Option R :=
  (locals t).lookup k

/-- `SetReporter(thread, r)` = `thread.SetLocal(localKey, r)`. -/
def setReporter {R : Type} (locals : Nat → List (String × R)) (t : Nat) (r : R) :
    Nat → List (String × R) :=
  setLocal locals t localKey r

/-- `GetReporter(thread)` = `thread.Local(localKey)` followed by the type
assertion. -/
def getReporter {R : Type} (locals : Nat → List (String × R)) (t : Nat) : Option R :=
  getLocal locals t localKey

/-! ## The `Test` and `Bench` adapters (src/test.go lines 22–58,
src/bench.go lines 23–91)

`Test` wraps a `*testing.T` (identified by a `Nat`) plus the `frozen`
flag; `Bench` wraps a `*testing.B`, of which only the iteration count
`N` is observable through the adapter. -/

/-- `type Test struct { t *testing.T; frozen bool }` (src/test.go:22). -/
structure Test where
  id : Nat
  frozen : Bool
  deriving Repr, DecidableEq

/-- `func (t *Test) Freeze() { t.frozen = true }` (src/test.go:33). -/
def Test.freeze (t : Test) : Test := { t with frozen := true }

/-- `type Bench struct { b *testing.B }` (src/bench.go:23); `bN` is the
wrapped `b.N`. -/
structure Bench where
  id : Nat
  bN : Int
  deriving Repr, DecidableEq

/-- An attribute value returned by `Attr`: either a `method` value bound
to a receiver type (src/bench.go:51–67) or, for `b.n`, the integer
`starlark.MakeInt(b.b.N)`. -/
inductive AttrVal where
  | method (recvId : Nat) (recvType : String) (name : String)
  | intv (n : Int)
  deriving Repr, DecidableEq

/-- The `testAttrs` map of src/test.go lines 39–43 as a lookup function:

```go
var testAttrs = map[string]testAttr{
    "run":  func(t *Test) starlark.Value { return method{t, "run", t.run} },
    "skip": func(t *Test) starlark.Value { return method{t, "skip", t.skip} },
    "fail": func(t *Test) starlark.Value { return method{t, "fail", t.fail} },
}
``` -/
def testAttrsFind (t : Test) (name : String) : Option AttrVal :=
  if name = "run" then some (AttrVal.method t.id "test" "run")
  else if name = "skip" then some (AttrVal.method t.id "test" "skip")
  else if name = "fail" then some (AttrVal.method t.id "test" "fail")
  else Option.none

/-- `func (t *Test) Attr(name string) (starlark.Value, error)`
(src/test.go:45–50): a hit returns the bound method and nil error, a
miss returns `nil, nil`. -/
def Test.attr (t : Test) (name : String) : Option AttrVal × Option String :=
  match testAttrsFind t name with
  | some v => (some v, Option.none)
  | Option.none => (Option.none, Option.none)

/-- The `benchAttrs` map of src/bench.go lines 69–76 as a lookup
function:

```go
var benchAttrs = map[string]benchAttr{
    "restart": func(b *Bench) starlark.Value { return method{b, "restart", b.restart} },
    "start":   func(b *Bench) starlark.Value { return method{b, "start", b.start} },
    "stop":    func(b *Bench) starlark.Value { return method{b, "stop", b.stop} },
    "n":       func(b *Bench) starlark.Value { return starlark.MakeInt(b.b.N) },
}
``` -/
def benchAttrsFind (b : Bench) (name : String) : Option AttrVal :=
  if name = "restart" then some (AttrVal.method b.id "benchmark" "restart")
  else if name = "start" then some (AttrVal.method b.id "benchmark" "start")
  else if name = "stop" then some (AttrVal.method b.id "benchmark" "stop")
  else if name = "n" then some (AttrVal.intv b.bN)
  else Option.none

/-- `func (b *Bench) Attr(name string) (starlark.Value, error)`
(src/bench.go:36–41). -/
def Bench.attr (b : Bench) (name : String) : Option AttrVal × Option String :=
  match benchAttrsFind b name with
  | some v => (some v, Option.none)
  | Option.none => (Option.none, Option.none)

/-- Insertion of a string into a lexicographically sorted list, using the
byte-wise order of `compare` (Go's `sort.Strings` order). -/
def insertSorted (a : String) : List String → List String
  | [] => [a]
  | b :: rest =>
    if (compare a b).isLE then a :: b :: rest else b :: insertSorted a rest

/-- `sort.Strings` on a list of keys. -/
def sortStrings (xs : List String) : List String :=
  xs.foldr insertSorted []

/-- `func (t *Test) AttrNames() []string` (src/test.go:51–58): the keys
of `testAttrs` (written in source order; Go map iteration order is
unspecified, and `sort.Strings` makes the result order-independent),
sorted. -/
def testAttrNames : List String := sortStrings ["run", "skip", "fail"]

/-- `func (b *Bench) AttrNames() []string` (src/bench.go:42–49): the
sorted keys of `benchAttrs`. -/
def benchAttrNames : List String := sortStrings ["restart", "start", "stop", "n"]

/-- The attribute names the specification ascribes to the `Test` adapter
(spec §2, "methods such as `run`, `skip`, `fail`, `eq`, `ne`, `lt`,
`contains`, `fails`"), for comparison with the set implemented in
src/test.go. -/
def specTestAttrNames : List String :=
  ["run", "skip", "fail", "eq", "ne", "lt", "contains", "fails"]

/-! ## The dispatch loops of `TestFile` and `BenchFile`
(src/test.go lines 196–232, src/bench.go lines 94–130)

After `starlark.ExecFile` returns the file's global bindings, `TestFile`
iterates over them:

```go
for key, val := range values {
    if !strings.HasPrefix(key, "test_") {
        continue // ignore
    }
    if _, ok := val.(starlark.Callable); !ok {
        continue // ignore non callable
    }
    key, val := key, val
    t.Run(key, func(t *testing.T) {
        t.Parallel()
        tt := NewTest(t)
        ...
        starlark.Call(thread, val, starlark.Tuple{tt}, nil)
    })
}
```

`BenchFile` is identical with "bench_", `b.Run`, `NewBench`, and no
`Parallel` call.  Each `t.Run` invocation becomes a `RunEvent` recording
the sub-test name, whether `Parallel` was called, and the argument tuple
passed to the Starlark function; the adapter allocated by `NewTest` /
`NewBench` inside each closure is fresh, which the model captures by
numbering allocations. -/

/-- `strings.HasPrefix(s, pre)`, computed on the character lists (equal
to Go's byte-wise check on well-formed UTF-8). -/
def hasPrefixStr (s pre : String) : Bool := pre.data.isPrefixOf s.data

/-- One `t.Run` / `b.Run` invocation made by the dispatch loop. -/
structure RunEvent where
  name : String
  parallel : Bool
  args : List SValue
  deriving Repr, DecidableEq

/-- The loop body of `TestFile` (src/test.go:208–231); `fresh` numbers
the `NewTest` allocations. -/
def testFileGo : List (String × SValue) → Nat → List RunEvent
  | [], _ => []
  | (key, val) :: rest, fresh =>
    if ¬ hasPrefixStr key "test_" then testFileGo rest fresh
    else if ¬ isCallable val then testFileGo rest fresh
    else { name := key, parallel := true, args := [SValue.test fresh false] }
           :: testFileGo rest (fresh + 1)

/-- The `t.Run` invocations `TestFile` performs for the global bindings
`values` returned by a successful `starlark.ExecFile`. -/
def testFileRuns (values : List (String × SValue)) : List RunEvent :=
  testFileGo values 0

/-- The loop body of `BenchFile` (src/bench.go:106–128); `fresh` numbers
the `NewBench` allocations.  `b.Run` sub-benchmarks are not marked
parallel. -/
def benchFileGo : List (String × SValue) → Nat → List RunEvent
  | [], _ => []
  | (key, val) :: rest, fresh =>
    if ¬ hasPrefixStr key "bench_" then benchFileGo rest fresh
    else if ¬ isCallable val then benchFileGo rest fresh
    else { name := key, parallel := false, args := [SValue.bench fresh] }
           :: benchFileGo rest (fresh + 1)

/-- The `b.Run` invocations `BenchFile` performs for the global bindings
`values` returned by a successful `starlark.ExecFile`. -/
def benchFileRuns (values : List (String × SValue)) : List RunEvent :=
  benchFileGo values 0

/-- The allocation indices of the adapters passed by a list of run
events (to state that every sub-test receives a fresh adapter). -/
def adapterIds (es : List RunEvent) : List Nat :=
  es.filterMap fun e =>
    match e.args with
    | [SValue.test i _] => some i
    | [SValue.bench i] => some i
    | _ => Option.none

/-! ## The `error`, `catch` and `matches` builtins
(src/starlarkassert.go lines 76–118)

The builtins run inside a Starlark thread; a thread's call stack is a
list of frames, outermost first and innermost (the builtin's own frame)
last, matching indexing by `CallStack.At(i)` and removal of the top
frame by `CallStack.Pop`. -/

/-- A `starlark.CallFrame`: the function name and the position of the
call. -/
structure Frame where
  name : String
  filename : String
  line : Nat
  col : Nat
  deriving Repr, DecidableEq

/-- `starlark.Value.String()` for the model's values (`None`, `True`,
decimal integers, quoted strings, `<function f>`, `<built-in function
f>`; the adapters print as `<test>` / `<benchmark>` per src/test.go:31
and src/bench.go:34).  Go's `strconv`-style escaping inside quoted
strings is not modelled; `error_` only reaches this function for
non-string arguments. -/
def valueString : SValue → String
  | SValue.none => "None"
  | SValue.bool true => "True"
  | SValue.bool false => "False"
  | SValue.int n => toString n
  | SValue.str s => "\"" ++ s ++ "\""
  | SValue.func name => "<function " ++ name ++ ">"
  | SValue.builtin name => "<built-in function " ++ name ++ ">"
  | SValue.test _ _ => "<test>"
  | SValue.bench _ => "<benchmark>"

/-- `starlark.AsString(v)` falling back to `v.String()` — the
`if s, ok := starlark.AsString(args[0]); ok { ... } else { ... }` branch
of `error_` (src/starlarkassert.go:111–115). -/
def asStringOr (v : SValue) : String :=
  match v with
  | SValue.str s => s
  | v => valueString v

/-- `error(x)` (src/starlarkassert.go lines 102–118):

```go
func error_(thread *starlark.Thread, _ *starlark.Builtin, args starlark.Tuple, _ []starlark.Tuple) (starlark.Value, error) {
    if len(args) != 1 {
        return nil, fmt.Errorf("error: got %d arguments, want 1", len(args))
    }
    buf := new(strings.Builder)
    stk := thread.CallStack()
    stk.Pop()
    fmt.Fprintf(buf, "%sError: ", stk)
    if s, ok := starlark.AsString(args[0]); ok {
        buf.WriteString(s)
    } else {
        buf.WriteString(args[0].String())
    }
    GetReporter(thread).Error(buf.String())
    return starlark.None, nil
}
```

`fmtStack` is the external `CallStack.String` formatter; `stack` is the
thread's call stack (the builtin's own frame last, removed by
`dropLast`); `reported` is the log of messages passed to
`Reporter.Error` so far. -/
def errorBuiltin (fmtStack : List Frame → String) (stack : List Frame)
    (args : List SValue) (reported : List String) :
    List String × Except String SValue :=
  if args.length ≠ 1 then
    (reported, Except.error ("error: got " ++ toString args.length ++ " arguments, want 1"))
  else
    let msg := fmtStack stack.dropLast ++ "Error: " ++ asStringOr (args.headD SValue.none)
    (reported ++ [msg], Except.ok SValue.none)

/-- `starlark.UnpackArgs("catch", args, kwargs, "fn", &fn)` with
`fn starlark.Callable` (src/starlarkassert.go:79–82), restricted to
positional arguments: exactly one argument which must be callable.  The
error strings stand in for the messages produced inside go.starlark.net.
-/
def unpackCallable (args : List SValue) : Except String SValue :=
  match args with
  | [fn] =>
    if isCallable fn then Except.ok fn
    else Except.error "catch: for parameter fn: got value, want callable"
  | _ => Except.error ("catch: got " ++ toString args.length ++ " arguments, want 1")

/-- `catch(fn)` (src/starlarkassert.go lines 76–87):

```go
func catch(thread *starlark.Thread, _ *starlark.Builtin, args starlark.Tuple, kwargs []starlark.Tuple) (starlark.Value, error) {
    var fn starlark.Callable
    if err := starlark.UnpackArgs("catch", args, kwargs, "fn", &fn); err != nil {
        return nil, err
    }
    if _, err := starlark.Call(thread, fn, nil, nil); err != nil {
        return starlark.String(err.Error()), nil
    }
    return starlark.None, nil
}
```

`call` is the external evaluation `starlark.Call(thread, fn, nil, nil)`.
-/
def catchBuiltin (call : SValue → Except String SValue) (args : List SValue) :
    Except String SValue :=
  match unpackCallable args with
  | Except.error e => Except.error e
  | Except.ok fn =>
    match call fn with
    | Except.error e => Except.ok (SValue.str e)
    | Except.ok _ => Except.ok SValue.none

/-- `matches(pattern, str)` (src/starlarkassert.go lines 89–100), after
`UnpackArgs` has bound the two string parameters:

```go
ok, err := regexp.MatchString(pattern, str)
if err != nil {
    return nil, fmt.Errorf("matches: %s", err)
}
return starlark.Bool(ok), nil
```

`matchString` is Go's external `regexp.MatchString` (an error means the
pattern failed to compile). -/
def matchesBuiltin (matchString : String → String → Except String Bool)
    (pattern str : String) : Except String SValue :=
  match matchString pattern str with
  | Except.error e => Except.error ("matches: " ++ e)
  | Except.ok ok => Except.ok (SValue.bool ok)

/-! ## `Test.run`, `Test.skip`, `Test.fail` (src/test.go lines 83–119)

Calls into the host `*testing.T` become events; `call fn arg` is the
external `starlark.Call(thread, fn, starlark.Tuple{tval}, nil)`. -/

/-- A call into the host `*testing.T` identified by `hostId`. -/
inductive TEvent where
  | runSub (hostId : Nat) (name : String) (arg : SValue)
  | skip (hostId : Nat)
  | fail (hostId : Nat)
  deriving Repr, DecidableEq

/-- `func (t *Test) run(...)` (src/test.go lines 83–109): rejects a
frozen receiver, unpacks `name` and `fn`, and otherwise runs
`t.t.Run(name, ...)` which allocates a fresh `NewTest` adapter (here
`t.id + 1` stands for the sub-test's `*testing.T`) and calls `fn` with
it as single argument, returning `fn`'s result.  The unpack-failure
message stands in for go.starlark.net's. -/
def Test.run (call : SValue → SValue → Except String SValue) (t : Test)
    (name : String) (fn : SValue) : List TEvent × Except String SValue :=
  if t.frozen then
    ([], Except.error "testing.t: frozen")
  else if ¬ isCallable fn then
    ([], Except.error "testing.run: for parameter fn: got value, want callable")
  else
    let tval := SValue.test (t.id + 1) false
    ([TEvent.runSub t.id name tval], call fn tval)

/-- `func (t *Test) skip(...)` (src/test.go lines 111–114): `t.t.Skip()`
unconditionally, then `None, nil`. -/
def Test.skip (t : Test) : List TEvent × Except String SValue :=
  ([TEvent.skip t.id], Except.ok SValue.none)

/-- `func (t *Test) fail(...)` (src/test.go lines 116–119): `t.t.Fail()`
unconditionally, then `None, nil`. -/
def Test.fail (t : Test) : List TEvent × Except String SValue :=
  ([TEvent.fail t.id], Except.ok SValue.none)

/-! ## `wrapLog` (src/test.go lines 60–81)

```go
func wrapLog(t testing.TB, thread *starlark.Thread) func() {
    _, origFile, origLine, _ := runtime.Caller(0)

    reporter := GetReporter(thread)
    SetReporter(thread, t)
    print := thread.Print
    thread.Print = func(thread *starlark.Thread, s string) {
        cf := thread.CallFrame(1)
        s = fmt.Sprintf("%s:%d:%d %s", thread.Name, cf.Pos.Line, cf.Pos.Col, s)

        // Overwrite go's filename in log.
        erase := strings.Repeat("\b", len(path.Base(origFile))+len(strconv.Itoa(origLine))+3)
        if diff := len(erase) - len(s); diff > 0 {
            s += strings.Repeat(" ", diff)
        }
        t.Logf("%s%s", erase, s)
    }
    return func() {
        SetReporter(thread, reporter)
        thread.Print = print
    }
}
```

A thread's `Print` field is a closure; closures are modelled as data
(`PrintFn`), and the thread's observable state as `WThread` (name,
print function, reporter).  `runtime.Caller(0)` yields the build
position of `wrapLog` itself, kept abstract as `origFile` / `origLine`.
Go's byte length `len(s)` is `String.utf8ByteSize`. -/

/-- A value of the `thread.Print` field: either some pre-existing host
closure (identified by a `Nat`) or the wrapper installed by `wrapLog`
logging to `testing.TB` number `tbId`. -/
inductive PrintFn where
  | host (id : Nat)
  | logWrapper (tbId : Nat) (origFile : String) (origLine : Nat)
  deriving Repr, DecidableEq

/-- The observable state of a `starlark.Thread` for `wrapLog`: its name,
its `Print` closure, and the reporter stored in its locals. -/
structure WThread where
  name : String
  print : PrintFn
  reporter : Option Nat
  deriving Repr, DecidableEq

/-- The state captured by `wrapLog` for its cleanup closure. -/
structure SavedPrint where
  reporter : Option Nat
  print : PrintFn
  deriving Repr, DecidableEq

/-- `wrapLog(t, thread)`: reads the current reporter (panic — `none` —
if unset), points the reporter and `Print` at the host `testing.TB`
`tbId`, and returns the new thread state together with the data of the
returned cleanup closure. -/
def wrapLog (tbId : Nat) (origFile : String) (origLine : Nat) (th : WThread) :
    Option (WThread × SavedPrint) :=
  match th.reporter with
  | Option.none => Option.none
  | some r =>
    some ({ th with reporter := some tbId,
                    print := PrintFn.logWrapper tbId origFile origLine },
          { reporter := some r, print := th.print })

/-- Running the cleanup closure returned by `wrapLog`:
`SetReporter(thread, reporter); thread.Print = print`. -/
def runCleanup (saved : SavedPrint) (th : WThread) : WThread :=
  { th with reporter := saved.reporter, print := saved.print }

/-- Go `path.Base` (for the slash-separated path of `runtime.Caller`):
empty path gives ".", trailing slashes are stripped, and the last
element is returned ("/" if nothing remains). -/
def pathBase (p : String) : String :=
  if p = "" then "."
  else
    let rev := p.data.reverse.dropWhile (fun c => c = '/')
    if rev = [] then "/"
    else String.mk (rev.takeWhile (fun c => c ≠ '/')).reverse

/-- `strings.Repeat(c, n)` for a single character. -/
def repeatChar (c : Char) (n : Nat) : String :=
  String.mk (List.replicate n c)

/-- `fmt.Sprintf("%s:%d:%d %s", thread.Name, cf.Pos.Line, cf.Pos.Col, s)`
— the reformatted message of the `wrapLog` print wrapper. -/
def printPositioned (threadName : String) (cfLine cfCol : Nat) (msg : String) : String :=
  threadName ++ ":" ++ toString cfLine ++ ":" ++ toString cfCol ++ " " ++ msg

/-- The string the `wrapLog` wrapper passes to `t.Logf("%s%s", erase, s)`
when the script prints `msg` from the call frame at `cfLine:cfCol` on
the thread named `threadName`. -/
def wrapLogged (origFile : String) (origLine : Nat) (threadName : String)
    (cfLine cfCol : Nat) (msg : String) : String :=
  let s := printPositioned threadName cfLine cfCol msg
  let erase := repeatChar '\x08'
      ((pathBase origFile).utf8ByteSize + (toString origLine).length + 3)
  let s := if erase.utf8ByteSize - s.utf8ByteSize > 0 then
             s ++ repeatChar ' ' (erase.utf8ByteSize - s.utf8ByteSize)
           else s
  erase ++ s

/-- Invoking a thread's `Print` closure on a message printed from the
frame at `cfLine:cfCol`: the `wrapLog` wrapper logs `wrapLogged ...` to
its `testing.TB`; a host closure's behaviour is external and not
modelled. -/
def emitPrint (p : PrintFn) (threadName : String) (cfLine cfCol : Nat)
    (msg : String) : Option (Nat × String) :=
  match p with
  | PrintFn.host _ => Option.none
  | PrintFn.logWrapper tbId origFile origLine =>
    some (tbId, wrapLogged origFile origLine threadName cfLine cfCol msg)

/-! ## `errorf` (src/test.go lines 121–146)

```go
func errorf(t testing.TB, filename string, err error) {
    t.Helper()
    switch err := err.(type) {
    case *starlark.EvalError:
        var found bool
        for i := range err.CallStack {
            posn := err.CallStack.At(i).Pos
            if posn.Filename() == filename {
                linenum := int(posn.Line)
                msg := err.Error()
                t.Errorf("\n%s:%d: unexpected error: %v", filename, linenum, msg)
                found = true
                break
            }
        }
        if !found {
            t.Error(err.Backtrace())
        }
    case nil:
        // success
    default:
        t.Errorf("\n%s", err)
    }
}
```

A Go `error` becomes `Option GoErr`; an `EvalError` carries its call
stack, its `Error()` message and its `Backtrace()` string.  The result
is the list of messages reported to `t`. -/

/-- The non-nil Go errors distinguished by `errorf`'s type switch. -/
inductive GoErr where
  | evalError (stack : List Frame) (msg : String) (backtrace : String)
  | plain (msg : String)
  deriving Repr, DecidableEq

/-- `errorf(t, filename, err)`: the messages it reports to `t`. -/
def errorf (filename : String) (err : Option GoErr) : List String :=
  match err with
  | Option.none => []
  | some (GoErr.evalError stack msg bt) =>
    match stack.find? (fun f => f.filename == filename) with
    | some fr =>
      ["\n" ++ filename ++ ":" ++ toString fr.line ++ ": unexpected error: " ++ msg]
    | Option.none => [bt]
  | some (GoErr.plain msg) => ["\n" ++ msg]

end Starlarkassert

namespace Starlarkassert

/-- **C1.** `LoadAssertModule` executes the embedded assert module at
most once per process: for every behaviour of the external `ExecFile`
and every positive number `n + 1` of calls starting from the process's
initial state, every call returns the one `(StringDict, error)` pair
obtained by executing `assert.star` with exactly the predeclared helpers
`error`, `catch`, `matches`, `module` and `_freeze`, and the execution
log holds exactly one entry — the module is never re-executed. -/
theorem loadAssertModule_once
    (exec : String → List String → StringDict × Option String) (n : Nat) :
    loadCalls exec (n + 1) initLoadState =
      (List.replicate (n + 1) (exec assertFilename predeclaredKeys),
       { onceDone := true,
         assert := (exec assertFilename predeclaredKeys).1,
         assertErr := (exec assertFilename predeclaredKeys).2,
         execLog := [(assertFilename, predeclaredKeys)] }) := by
  have hdone : ∀ m : Nat, ∀ s : LoadState, s.onceDone = true →
      loadCalls exec m s = (List.replicate m (s.assert, s.assertErr), s) := by
    intro m
    induction m with
    | zero => intro s _; simp [loadCalls]
    | succ k ih =>
      intro s hs
      simp [loadCalls, loadAssertModule, hs, ih s hs, List.replicate]
  have h := hdone n
    { onceDone := true, assert := (exec assertFilename predeclaredKeys).1,
      assertErr := (exec assertFilename predeclaredKeys).2,
      execLog := [(assertFilename, predeclaredKeys)] } rfl
  simp [loadCalls, loadAssertModule, initLoadState, h, List.replicate]

/-- **C3.** Reporter association is a per-thread round-trip: after
`SetReporter(thread, r)`, `GetReporter(thread)` returns exactly `r`, and
the reporter observed on any other thread is unchanged — the association
is keyed by thread identity. -/
theorem setReporter_roundtrip {R : Type} (locals : Nat → List (String × R))
    (t u : Nat) (r : R) (h : u ≠ t) :
    getReporter (setReporter locals t r) t = some r ∧
    getReporter (setReporter locals t r) u = getReporter locals u := by
  constructor
  · simp [getReporter, setReporter, setLocal, getLocal, List.lookup]
  · simp [getReporter, setReporter, setLocal, getLocal, h]

/-- Witness for C3 at a concrete pair of threads. -/
theorem setReporter_roundtrip_witness :
    (1 : Nat) ≠ 0 ∧
    (getReporter (setReporter (fun _ => ([] : List (String × Nat))) 0 7) 0 = some 7 ∧
     getReporter (setReporter (fun _ => ([] : List (String × Nat))) 0 7) 1 =
       getReporter (fun _ => ([] : List (String × Nat))) 1) :=
  ⟨by decide, setReporter_roundtrip (fun _ => ([] : List (String × Nat))) 0 1 7 (by decide)⟩

/-- **C4 (counterexample).** The claim's attribute set for the `Test`
adapter includes `eq`, but on the `testAttrs` map of src/test.go the
name `eq` is outside the attribute set: `Attr` returns no value (and no
error) for it and `AttrNames` does not list it. -/
theorem adapter_attr_sets_cx :
    "eq" ∈ specTestAttrNames ∧
    Test.attr { id := 0, frozen := false } "eq" = (Option.none, Option.none) ∧
    "eq" ∉ testAttrNames := by
  decide

/-- **C4 (amended).** The `Test` adapter exposes exactly the attributes
`fail`, `run`, `skip` and the `Bench` adapter exactly `n`, `restart`,
`start`, `stop`: for every name in the set, `Attr` returns a method
bound to the receiver (or, for `n`, the current iteration count
`b.b.N`) and a nil error; for every name outside the set, `Attr`
returns no value and no error; and `AttrNames` returns exactly the set,
sorted lexicographically. -/
theorem adapter_attr_sets :
    (∀ (t : Test) (name : String),
        ((Test.attr t name).1.isSome ↔ name ∈ testAttrNames) ∧
        (Test.attr t name).2 = Option.none) ∧
    (∀ t : Test,
        Test.attr t "run" = (some (AttrVal.method t.id "test" "run"), Option.none) ∧
        Test.attr t "skip" = (some (AttrVal.method t.id "test" "skip"), Option.none) ∧
        Test.attr t "fail" = (some (AttrVal.method t.id "test" "fail"), Option.none)) ∧
    testAttrNames = ["fail", "run", "skip"] ∧
    (∀ (b : Bench) (name : String),
        ((Bench.attr b name).1.isSome ↔ name ∈ benchAttrNames) ∧
        (Bench.attr b name).2 = Option.none) ∧
    (∀ b : Bench,
        Bench.attr b "restart" = (some (AttrVal.method b.id "benchmark" "restart"), Option.none) ∧
        Bench.attr b "start" = (some (AttrVal.method b.id "benchmark" "start"), Option.none) ∧
        Bench.attr b "stop" = (some (AttrVal.method b.id "benchmark" "stop"), Option.none) ∧
        Bench.attr b "n" = (some (AttrVal.intv b.bN), Option.none)) ∧
    benchAttrNames = ["n", "restart", "start", "stop"] := by
  have htn : testAttrNames = ["fail", "run", "skip"] := by decide
  have hbn : benchAttrNames = ["n", "restart", "start", "stop"] := by decide
  refine ⟨fun t name => ?_, fun t => ?_, htn, fun b name => ?_, fun b => ?_, hbn⟩
  · rw [htn]
    by_cases h1 : name = "run"
    · subst h1; simp [Test.attr, testAttrsFind]
    by_cases h2 : name = "skip"
    · subst h2; simp [Test.attr, testAttrsFind]
    by_cases h3 : name = "fail"
    · subst h3; simp [Test.attr, testAttrsFind]
    · simp [Test.attr, testAttrsFind, h1, h2, h3]
  · exact ⟨by simp [Test.attr, testAttrsFind], by simp [Test.attr, testAttrsFind],
      by simp [Test.attr, testAttrsFind]⟩
  · rw [hbn]
    by_cases h1 : name = "restart"
    · subst h1; simp [Bench.attr, benchAttrsFind]
    by_cases h2 : name = "start"
    · subst h2; simp [Bench.attr, benchAttrsFind]
    by_cases h3 : name = "stop"
    · subst h3; simp [Bench.attr, benchAttrsFind]
    by_cases h4 : name = "n"
    · subst h4; simp [Bench.attr, benchAttrsFind]
    · simp [Bench.attr, benchAttrsFind, h1, h2, h3, h4]
  · exact ⟨by simp [Bench.attr, benchAttrsFind], by simp [Bench.attr, benchAttrsFind],
      by simp [Bench.attr, benchAttrsFind], by simp [Bench.attr, benchAttrsFind]⟩

/-- Helper: the sub-test names produced by the `TestFile` loop are the
keys of the prefixed callable bindings, in order. -/
theorem testFileGo_names (vs : List (String × SValue)) (n : Nat) :
    (testFileGo vs n).map RunEvent.name =
      (vs.filter (fun kv => hasPrefixStr kv.1 "test_" && isCallable kv.2)).map Prod.fst := by
  induction vs generalizing n with
  | nil => simp [testFileGo]
  | cons kv rest ih =>
    obtain ⟨key, val⟩ := kv
    by_cases h1 : hasPrefixStr key "test_"
    · by_cases h2 : isCallable val
      · simp [testFileGo, h1, h2, ih]
      · simp [testFileGo, h1, h2, ih]
    · simp [testFileGo, h1, ih]

/-- Helper: every event of the `TestFile` loop is parallel and carries a
fresh, unfrozen `NewTest` adapter as its only argument. -/
theorem testFileGo_mem (vs : List (String × SValue)) (n : Nat) (e : RunEvent)
    (he : e ∈ testFileGo vs n) :
    e.parallel = true ∧ ∃ i, e.args = [SValue.test i false] := by
  induction vs generalizing n with
  | nil => simp [testFileGo] at he
  | cons kv rest ih =>
    obtain ⟨key, val⟩ := kv
    by_cases h1 : hasPrefixStr key "test_"
    · by_cases h2 : isCallable val
      · rw [testFileGo] at he
        simp only [h1, h2, not_true_eq_false, if_false, if_true, Bool.not_true,
          List.mem_cons] at he
        rcases he with he | he
        · subst he; exact ⟨rfl, n, rfl⟩
        · exact ih (n + 1) he
      · rw [testFileGo] at he
        simp only [h1, h2] at he
        simp at he
        exact ih n he
    · rw [testFileGo] at he
      simp only [h1] at he
      simp at he
      exact ih n he

/-- Helper: the adapter indices allocated by the `TestFile` loop
starting from counter `n` are all at least `n`. -/
theorem adapterIds_testFileGo_ge (vs : List (String × SValue)) (n i : Nat)
    (hi : i ∈ adapterIds (testFileGo vs n)) : n ≤ i := by
  induction vs generalizing n with
  | nil => simp [testFileGo, adapterIds] at hi
  | cons kv rest ih =>
    obtain ⟨key, val⟩ := kv
    by_cases h1 : hasPrefixStr key "test_"
    · by_cases h2 : isCallable val
      · rw [testFileGo] at hi
        simp only [h1, h2] at hi
        simp only [adapterIds, List.filterMap_cons] at hi
        rcases List.mem_cons.mp hi with hi | hi
        · omega
        · have := ih (n + 1) hi
          omega
      · rw [testFileGo] at hi
        simp only [h1, h2] at hi
        simp at hi
        exact ih n hi
    · rw [testFileGo] at hi
      simp only [h1] at hi
      simp at hi
      exact ih n hi

/-- Helper: the adapter indices allocated by the `TestFile` loop are
strictly increasing, hence pairwise distinct. -/
theorem adapterIds_testFileGo_pairwise (vs : List (String × SValue)) (n : Nat) :
    (adapterIds (testFileGo vs n)).Pairwise (· < ·) := by
  induction vs generalizing n with
  | nil => simp [testFileGo, adapterIds]
  | cons kv rest ih =>
    obtain ⟨key, val⟩ := kv
    by_cases h1 : hasPrefixStr key "test_"
    · by_cases h2 : isCallable val
      · rw [testFileGo]
        simp only [h1, h2]
        simp only [adapterIds, List.filterMap_cons, Bool.not_true, if_false]
        refine List.Pairwise.cons ?_ (ih (n + 1))
        intro j hj
        have := adapterIds_testFileGo_ge rest (n + 1) j hj
        omega
      · rw [testFileGo]; simp only [h1, h2]; simp; exact ih n
    · rw [testFileGo]; simp only [h1]; simp; exact ih n

/-- Helper: the sub-benchmark names produced by the `BenchFile` loop are
the keys of the prefixed callable bindings, in order. -/
theorem benchFileGo_names (vs : List (String × SValue)) (n : Nat) :
    (benchFileGo vs n).map RunEvent.name =
      (vs.filter (fun kv => hasPrefixStr kv.1 "bench_" && isCallable kv.2)).map Prod.fst := by
  induction vs generalizing n with
  | nil => simp [benchFileGo]
  | cons kv rest ih =>
    obtain ⟨key, val⟩ := kv
    by_cases h1 : hasPrefixStr key "bench_"
    · by_cases h2 : isCallable val
      · simp [benchFileGo, h1, h2, ih]
      · simp [benchFileGo, h1, h2, ih]
    · simp [benchFileGo, h1, ih]

/-- Helper: every event of the `BenchFile` loop is sequential and
carries a fresh `NewBench` adapter as its only argument. -/
theorem benchFileGo_mem (vs : List (String × SValue)) (n : Nat) (e : RunEvent)
    (he : e ∈ benchFileGo vs n) :
    e.parallel = false ∧ ∃ i, e.args = [SValue.bench i] := by
  induction vs generalizing n with
  | nil => simp [benchFileGo] at he
  | cons kv rest ih =>
    obtain ⟨key, val⟩ := kv
    by_cases h1 : hasPrefixStr key "bench_"
    · by_cases h2 : isCallable val
      · rw [benchFileGo] at he
        simp only [h1, h2, List.mem_cons] at he
        simp at he
        rcases he with he | he
        · subst he; exact ⟨rfl, n, rfl⟩
        · exact ih (n + 1) he
      · rw [benchFileGo] at he
        simp only [h1, h2] at he
        simp at he
        exact ih n he
    · rw [benchFileGo] at he
      simp only [h1] at he
      simp at he
      exact ih n he

/-- Helper: the adapter indices allocated by the `BenchFile` loop
starting from counter `n` are all at least `n`. -/
theorem adapterIds_benchFileGo_ge (vs : List (String × SValue)) (n i : Nat)
    (hi : i ∈ adapterIds (benchFileGo vs n)) : n ≤ i := by
  induction vs generalizing n with
  | nil => simp [benchFileGo, adapterIds] at hi
  | cons kv rest ih =>
    obtain ⟨key, val⟩ := kv
    by_cases h1 : hasPrefixStr key "bench_"
    · by_cases h2 : isCallable val
      · rw [benchFileGo] at hi
        simp only [h1, h2] at hi
        simp only [adapterIds, List.filterMap_cons] at hi
        rcases List.mem_cons.mp hi with hi | hi
        · omega
        · have := ih (n + 1) hi
          omega
      · rw [benchFileGo] at hi
        simp only [h1, h2] at hi
        simp at hi
        exact ih n hi
    · rw [benchFileGo] at hi
      simp only [h1] at hi
      simp at hi
      exact ih n hi

/-- Helper: the adapter indices allocated by the `BenchFile` loop are
strictly increasing, hence pairwise distinct. -/
theorem adapterIds_benchFileGo_pairwise (vs : List (String × SValue)) (n : Nat) :
    (adapterIds (benchFileGo vs n)).Pairwise (· < ·) := by
  induction vs generalizing n with
  | nil => simp [benchFileGo, adapterIds]
  | cons kv rest ih =>
    obtain ⟨key, val⟩ := kv
    by_cases h1 : hasPrefixStr key "bench_"
    · by_cases h2 : isCallable val
      · rw [benchFileGo]
        simp only [h1, h2]
        simp only [adapterIds, List.filterMap_cons, Bool.not_true, if_false]
        refine List.Pairwise.cons ?_ (ih (n + 1))
        intro j hj
        have := adapterIds_benchFileGo_ge rest (n + 1) j hj
        omega
      · rw [benchFileGo]; simp only [h1, h2]; simp; exact ih n
    · rw [benchFileGo]; simp only [h1]; simp; exact ih n

/-- **C2.** The dispatch loops of `TestFile` and `BenchFile` invoke
exactly the top-level bindings whose name has the "test_" (resp.
"bench_") marker and whose value is callable — each as a sub-test via
`t.Run` named by the binding key, with a fresh adapter as the single
argument, test sub-tests marked parallel (bench sub-benchmarks not) —
and no other binding is ever invoked. -/
theorem testFile_dispatch (values : List (String × SValue)) :
    ((testFileRuns values).map RunEvent.name =
        (values.filter (fun kv => hasPrefixStr kv.1 "test_" && isCallable kv.2)).map Prod.fst) ∧
    (∀ e ∈ testFileRuns values, e.parallel = true ∧ ∃ i, e.args = [SValue.test i false]) ∧
    (adapterIds (testFileRuns values)).Nodup ∧
    ((benchFileRuns values).map RunEvent.name =
        (values.filter (fun kv => hasPrefixStr kv.1 "bench_" && isCallable kv.2)).map Prod.fst) ∧
    (∀ e ∈ benchFileRuns values, e.parallel = false ∧ ∃ i, e.args = [SValue.bench i]) ∧
    (adapterIds (benchFileRuns values)).Nodup := by
  refine ⟨testFileGo_names values 0, fun e he => testFileGo_mem values 0 e he,
    ?_, benchFileGo_names values 0, fun e he => benchFileGo_mem values 0 e he, ?_⟩
  · exact (adapterIds_testFileGo_pairwise values 0).imp fun h => Nat.ne_of_lt h
  · exact (adapterIds_benchFileGo_pairwise values 0).imp fun h => Nat.ne_of_lt h

/-- Witness for C2 on a concrete file: of the bindings `test_a`
(callable), `helper` (callable, no marker), `test_b` (non-callable) and
`bench_c` (callable), exactly `test_a` is run as a parallel sub-test and
exactly `bench_c` as a sub-benchmark. -/
theorem testFile_dispatch_witness :
    (testFileRuns
        [("test_a", SValue.func "a"), ("helper", SValue.func "h"),
         ("test_b", SValue.int 3), ("bench_c", SValue.builtin "c")]).map RunEvent.name
      = ["test_a"] ∧
    ({ name := "test_a", parallel := true, args := [SValue.test 0 false] : RunEvent}.parallel
        = true ∧
      ∃ i, ({ name := "test_a", parallel := true, args := [SValue.test 0 false] : RunEvent}.args
        = [SValue.test i false])) := by
  have h := testFile_dispatch
    [("test_a", SValue.func "a"), ("helper", SValue.func "h"),
     ("test_b", SValue.int 3), ("bench_c", SValue.builtin "c")]
  refine ⟨by decide, h.2.1 _ ?_⟩
  decide

/-- **C5.** `error(x)` with exactly one positional argument forwards to
the thread's reporter one message made of the caller's stack (the
builtin's own frame popped) followed by the string form of the argument,
and returns `None`; with any other number of positional arguments it
returns an error and reports nothing. -/
theorem errorBuiltin_spec (fmtStack : List Frame → String) (stack : List Frame)
    (reported : List String) (args : List SValue) :
    (∀ x, args = [x] →
        errorBuiltin fmtStack stack args reported =
          (reported ++ [fmtStack stack.dropLast ++ "Error: " ++ asStringOr x],
           Except.ok SValue.none)) ∧
    (args.length ≠ 1 →
        errorBuiltin fmtStack stack args reported =
          (reported,
           Except.error ("error: got " ++ toString args.length ++ " arguments, want 1"))) := by
  constructor
  · rintro x rfl
    simp [errorBuiltin]
  · intro h
    simp [errorBuiltin, h]

/-- Witness for C5: one argument reports and returns `None`; zero
arguments errors and reports nothing. -/
theorem errorBuiltin_spec_witness :
    errorBuiltin (fun _ => "Traceback ") [] [SValue.str "boom"] [] =
      (["Traceback Error: boom"], Except.ok SValue.none) ∧
    errorBuiltin (fun _ => "Traceback ") [] [] [] =
      ([], Except.error "error: got 0 arguments, want 1") := by
  constructor
  · have h := (errorBuiltin_spec (fun _ => "Traceback ") [] [] [SValue.str "boom"]).1
      (SValue.str "boom") rfl
    rw [h]; rfl
  · have h := (errorBuiltin_spec (fun _ => "Traceback ") [] [] []).2 (by decide)
    rw [h]; rfl

/-- **C6.** `matches(pattern, str)` returns the Starlark boolean `True`
exactly when the regexp engine reports a match, and when the engine
rejects the pattern it returns no value and an error carrying the
"matches: " marker. -/
theorem matchesBuiltin_spec (matchString : String → String → Except String Bool)
    (pattern str : String) :
    (∀ b, matchString pattern str = Except.ok b →
        (matchesBuiltin matchString pattern str = Except.ok (SValue.bool true) ↔
          b = true)) ∧
    (∀ e, matchString pattern str = Except.error e →
        matchesBuiltin matchString pattern str = Except.error ("matches: " ++ e)) := by
  constructor
  · intro b hb
    cases b <;> simp [matchesBuiltin, hb]
  · intro e he
    simp [matchesBuiltin, he]

/-- Witness for C6 on a concrete engine verdict and a concrete engine
failure. -/
theorem matchesBuiltin_spec_witness :
    matchesBuiltin (fun _ _ => Except.ok true) "a.*" "abc" =
      Except.ok (SValue.bool true) ∧
    matchesBuiltin (fun _ _ => Except.error "bad pattern") "(" "x" =
      Except.error ("matches: " ++ "bad pattern") := by
  constructor
  · exact ((matchesBuiltin_spec (fun _ _ => Except.ok true) "a.*" "abc").1 true rfl).mpr rfl
  · exact (matchesBuiltin_spec (fun _ _ => Except.error "bad pattern") "(" "x").2
      "bad pattern" rfl

/-- **C7.** While a `wrapLog` interception is active, a message printed
by the script is logged reformatted as the thread name and the printing
call frame's line and column followed by the message (preceded by the
erase prefix and possibly padded with spaces); and running the returned
cleanup restores both `thread.Print` and the thread's reporter to
exactly their values from before the `wrapLog` call. -/
theorem wrapLog_spec (tbId : Nat) (origFile : String) (origLine : Nat)
    (th : WThread) (r : Nat) (h : th.reporter = some r) :
    (∃ th2 saved,
        wrapLog tbId origFile origLine th = some (th2, saved) ∧
        th2.print = PrintFn.logWrapper tbId origFile origLine ∧
        th2.reporter = some tbId ∧
        th2.name = th.name ∧
        runCleanup saved th2 = th) ∧
    (∀ (cfLine cfCol : Nat) (msg : String),
        ∃ pad,
          emitPrint (PrintFn.logWrapper tbId origFile origLine) th.name cfLine cfCol msg =
            some (tbId,
              repeatChar '\x08'
                  ((pathBase origFile).utf8ByteSize + (toString origLine).length + 3) ++
                (printPositioned th.name cfLine cfCol msg ++ pad)) ∧
          (pad = "" ∨ ∃ k, pad = repeatChar ' ' k)) := by
  constructor
  · obtain ⟨name, printv, reporterv⟩ := th
    simp only at h
    subst h
    exact ⟨_, _, rfl, rfl, rfl, rfl, rfl⟩
  · intro cfLine cfCol msg
    by_cases hc :
        (repeatChar '\x08'
            ((pathBase origFile).utf8ByteSize + (toString origLine).length + 3)).utf8ByteSize -
          (printPositioned th.name cfLine cfCol msg).utf8ByteSize > 0
    · refine ⟨repeatChar ' '
          ((repeatChar '\x08'
              ((pathBase origFile).utf8ByteSize + (toString origLine).length + 3)).utf8ByteSize -
            (printPositioned th.name cfLine cfCol msg).utf8ByteSize),
        ?_, Or.inr ⟨_, rfl⟩⟩
      simp only [emitPrint, wrapLogged]
      rw [if_pos hc]
    · refine ⟨"", ?_, Or.inl rfl⟩
      simp only [emitPrint, wrapLogged]
      rw [if_neg hc]
      rw [String.append_empty]

/-- Witness for C7 on a concrete thread state. -/
theorem wrapLog_spec_witness :
    ({ name := "f.star", print := PrintFn.host 0, reporter := some 5 : WThread }).reporter
        = some 5 ∧
    (wrapLog 1 "/go/src/test.go" 61
        { name := "f.star", print := PrintFn.host 0, reporter := some 5 }).isSome = true := by
  have h := wrapLog_spec 1 "/go/src/test.go" 61
    { name := "f.star", print := PrintFn.host 0, reporter := some 5 } 5 rfl
  obtain ⟨⟨th2, saved, heq, _⟩, _⟩ := h
  exact ⟨rfl, by simp [heq]⟩

/-- **C8.** Once `Freeze` has been called on a `Test` adapter, `run`
returns the error "testing.t: frozen" without starting a sub-test or
invoking the given function, while `skip` and `fail` remain callable and
still delegate to the host test object. -/
theorem frozen_test_run (call : SValue → SValue → Except String SValue)
    (t : Test) (name : String) (fn : SValue) :
    Test.run call (Test.freeze t) name fn = ([], Except.error "testing.t: frozen") ∧
    Test.skip (Test.freeze t) = ([TEvent.skip t.id], Except.ok SValue.none) ∧
    Test.fail (Test.freeze t) = ([TEvent.fail t.id], Except.ok SValue.none) := by
  refine ⟨?_, rfl, rfl⟩
  simp [Test.run, Test.freeze]

/-- **C9.** `catch(fn)` never propagates an evaluation failure of `fn`:
when the argument unpacks as a callable, a failing `fn()` makes `catch`
return the failure's message as a Starlark string with nil error and a
succeeding `fn()` makes it return `None`; `catch` returns an error only
when its argument fails to unpack as a callable. -/
theorem catch_spec (call : SValue → Except String SValue) :
    (∀ args fn, unpackCallable args = Except.ok fn →
        (∀ e, call fn = Except.error e →
            catchBuiltin call args = Except.ok (SValue.str e)) ∧
        (∀ v, call fn = Except.ok v →
            catchBuiltin call args = Except.ok SValue.none)) ∧
    (∀ args e, catchBuiltin call args = Except.error e →
        unpackCallable args = Except.error e) := by
  constructor
  · intro args fn hu
    constructor
    · intro e he; simp [catchBuiltin, hu, he]
    · intro v hv; simp [catchBuiltin, hu, hv]
  · intro args e hce
    cases hu : unpackCallable args with
    | error e2 =>
      simp only [catchBuiltin, hu, Except.error.injEq] at hce
      subst hce
      rfl
    | ok fn =>
      simp only [catchBuiltin, hu] at hce
      cases hc : call fn with
      | error e2 => simp [hc] at hce
      | ok v => simp [hc] at hce

/-- Witness for C9: a failing call is caught as a string, a succeeding
call yields `None`. -/
theorem catch_spec_witness :
    catchBuiltin (fun _ => Except.error "failed: boom") [SValue.func "f"] =
      Except.ok (SValue.str "failed: boom") ∧
    catchBuiltin (fun _ => Except.ok SValue.none) [SValue.func "f"] =
      Except.ok SValue.none := by
  constructor
  · exact ((catch_spec (fun _ => Except.error "failed: boom")).1 [SValue.func "f"]
      (SValue.func "f") rfl).1 "failed: boom" rfl
  · exact ((catch_spec (fun _ => Except.ok SValue.none)).1 [SValue.func "f"]
      (SValue.func "f") rfl).2 SValue.none rfl

/-- **C10.** `errorf` reports nothing for a nil error; for an
`EvalError` whose call stack has a frame in the given filename it
reports one message with that filename and the line of the first such
frame; for an `EvalError` with no frame in that file it reports the
error's backtrace; and for every other non-nil error it reports the
error text. -/
theorem errorf_spec (filename : String) :
    errorf filename Option.none = [] ∧
    (∀ stack msg bt fr,
        stack.find? (fun f => f.filename == filename) = some fr →
        errorf filename (some (GoErr.evalError stack msg bt)) =
          ["\n" ++ filename ++ ":" ++ toString fr.line ++ ": unexpected error: " ++ msg]) ∧
    (∀ stack msg bt,
        stack.find? (fun f => f.filename == filename) = Option.none →
        errorf filename (some (GoErr.evalError stack msg bt)) = [bt]) ∧
    (∀ msg, errorf filename (some (GoErr.plain msg)) = ["\n" ++ msg]) := by
  refine ⟨rfl, ?_, ?_, fun msg => rfl⟩
  · intro stack msg bt fr hf
    simp only [errorf, hf]
  · intro stack msg bt hf
    simp only [errorf, hf]

/-- Witness for C10: the first frame in the file wins; a stack foreign
to the file reports the backtrace; a plain error reports its text. -/
theorem errorf_spec_witness :
    errorf "a.star"
        (some (GoErr.evalError
          [{ name := "fn", filename := "other.star", line := 2, col := 1 },
           { name := "g", filename := "a.star", line := 7, col := 3 },
           { name := "h", filename := "a.star", line := 9, col := 1 }] "boom" "bt")) =
      ["\na.star:7: unexpected error: boom"] ∧
    errorf "a.star"
        (some (GoErr.evalError
          [{ name := "fn", filename := "other.star", line := 2, col := 1 }] "boom" "bt")) =
      ["bt"] ∧
    errorf "a.star" (some (GoErr.plain "io failure")) = ["\nio failure"] := by
  refine ⟨?_, ?_, (errorf_spec "a.star").2.2.2 "io failure"⟩
  · have h := (errorf_spec "a.star").2.1
      [{ name := "fn", filename := "other.star", line := 2, col := 1 },
       { name := "g", filename := "a.star", line := 7, col := 3 },
       { name := "h", filename := "a.star", line := 9, col := 1 }] "boom" "bt"
      { name := "g", filename := "a.star", line := 7, col := 3 } (by decide)
    rw [h]; decide
  · exact (errorf_spec "a.star").2.2.1
      [{ name := "fn", filename := "other.star", line := 2, col := 1 }] "boom" "bt"
      (by decide)

end Starlarkassert
